import Mathlib

/-!
Shallow embedding of the local authentication, configuration and packaging
core of the endgame-hq/mcp repository.

Modules embedded (from the JavaScript source):
* `src/utils/oauth-flow.js` — the ephemeral callback HTTP server handler
  (`startCallbackServer`) and the orchestrating flow (`startDashboardAuthFlow`).
* `src/sdk.js` (and its revision importing `validateApiKey`) — the dotfile
  config store (`readDotFile`, `writeDotFile`, `setup`, `resolveAppName`) and
  the authenticated request helper (`fetchManagementApi`).
* `src/utils/global-config.js` — `readGlobalConfig`, `writeGlobalConfig`,
  `getGlobalApiKey`.
* `src/utils/zip.js` — `zipDirectory` (with its traversal exclusions),
  `cleanupTempZip` and `createTempZip`.

JavaScript strings that can also be absent are modelled as `Option String`;
JavaScript truthiness is modelled explicitly (the empty string, `null` and
`undefined` are falsy).  Fallible code returns `Except`, thrown errors carry
the message string from the source.
-/

namespace Endgame

/-- Truthiness of a JavaScript string-or-undefined value: `undefined`/`null`
and the empty string are falsy, every other string is truthy. -/
def jsTruthy : Option String → Bool
  | none => false
  | some s => !(s == "")

/-! ## Ephemeral callback server (`src/utils/oauth-flow.js`, `startCallbackServer`) -/

/-- An incoming HTTP request as seen by the callback server handler:
`url.pathname`, `url.searchParams.get('api_key')` and
`url.searchParams.get('error')` (absent parameter is `none`). -/
structure CallbackRequest where
  pathname : String
  apiKeyParam : Option String
  errorParam : Option String

/-- What the handler does to the pending token promise. -/
inductive PromiseEffect where
  | resolveWith (apiKey : String)
  | rejectWith (message : String)
  | untouched
deriving DecidableEq

/-- The HTTP response written by the handler: status code and body. -/
structure CallbackResponse where
  status : Nat
  body : String
deriving DecidableEq

def authFailedCloseBody : String :=
  "<h1>Authentication Failed</h1><p>You can close this window.</p>"

def authFailedNoKeyBody : String :=
  "<h1>Authentication Failed</h1><p>No API key received.</p>"

def authSuccessBody : String :=
  "<h1>Authentication Successful!</h1><p>You can close this window and return to your IDE.</p>"

/-- The request handler installed by `startCallbackServer`
(`src/utils/oauth-flow.js` lines 49–84).  Mirrors the source: on the callback
path it first tests `if (error)` (JS truthiness), then `if (!apiKey)`, and
otherwise resolves the promise with the `api_key` value; any other path gets
a 404 and leaves the promise untouched. -/
def handleCallbackRequest (req : CallbackRequest) : CallbackResponse × PromiseEffect :=
  if req.pathname = "/mcp/auth/callback" then
    let apiKey := req.apiKeyParam
    let error := req.errorParam
    if jsTruthy error then
      (⟨400, authFailedCloseBody⟩, .rejectWith ("Authentication error: " ++ error.getD ""))
    else if !(jsTruthy apiKey) then
      (⟨400, authFailedNoKeyBody⟩, .rejectWith "No API key received")
    else
      (⟨200, authSuccessBody⟩, .resolveWith (apiKey.getD ""))
  else
    (⟨404, "Not Found"⟩, .untouched)

/-! ## Auth orchestrator (`src/utils/oauth-flow.js`, `startDashboardAuthFlow`) -/

/-- Outcome of `Promise.race([tokenPromise, timeout])` inside the flow. -/
inductive RaceOutcome where
  | resolved (apiKey : String)
  | rejected (message : String)
  | timedOut

/-- Observable events of one run of `startDashboardAuthFlow` after the
callback server started successfully. -/
inductive FlowEvent where
  | openBrowser
  | saveApiKey (apiKey : String)
  | closeServer
  | returned (apiKey : String)
  | threw (message : String)
deriving DecidableEq

def timeoutMessage : String := "Authentication timeout after 5 minutes"

/-- An event is the flow handing control back to the caller (a `return` or a
thrown error escaping the function). -/
def FlowEvent.isTerminal : FlowEvent → Bool
  | .returned _ => true
  | .threw _ => true
  | _ => false

/-- Event trace of `startDashboardAuthFlow` (`src/utils/oauth-flow.js` lines
6–39) once `startCallbackServer` has succeeded.  The `try` block opens the
browser (failure is non-fatal), awaits the race, and on success calls
`saveGlobalApiKey` (which may itself throw, modelled by `saveFailure`) and
returns the key; the `finally` block closes the server before the function
returns or the error propagates. -/
def startDashboardAuthFlow (outcome : RaceOutcome) (saveFailure : Option String) :
    List FlowEvent :=
  match outcome with
  | .resolved apiKey =>
      match saveFailure with
      | none => [.openBrowser, .saveApiKey apiKey, .closeServer, .returned apiKey]
      | some e => [.openBrowser, .saveApiKey apiKey, .closeServer, .threw e]
  | .rejected message => [.openBrowser, .closeServer, .threw message]
  | .timedOut => [.openBrowser, .closeServer, .threw timeoutMessage]

/-! ## JSON documents and JavaScript object-spread semantics -/

/-- A JSON value as manipulated by the config store. -/
inductive JsVal where
  | null
  | bool (b : Bool)
  | num (n : Int)
  | str (s : String)
  | obj (fields : List (String × JsVal))

/-- JavaScript truthiness of a JSON value: `null`, `false`, `0` and the empty
string are falsy; every object (even empty) is truthy. -/
def jsValTruthy : JsVal → Bool
  | .null => false
  | .bool b => b
  | .num n => !(n == 0)
  | .str s => !(s == "")
  | .obj _ => true

/-- Truthiness of a possibly-absent (`undefined`) JSON value, as used by
`existingData.app && …` and `!dotfileData.app`. -/
def jsOptTruthy : Option JsVal → Bool
  | none => false
  | some v => jsValTruthy v

/-- JavaScript template-literal stringification, used for the interpolation
in the app-name conflict message and the bearer header. -/
def jsToString : JsVal → String
  | .null => "null"
  | .bool b => cond b "true" "false"
  | .num n => toString n
  | .str s => s
  | .obj _ => "[object Object]"

/-- JavaScript strict inequality `x !== name` between a possibly-absent JSON
value and a string: false exactly when the value is that very string. -/
def jsStrictNeqStr : Option JsVal → String → Bool
  | some (.str s), a => !(s == a)
  | _, _ => true

/-- A JSON document, observed through its top-level key lookup
(`undefined` for a key the document does not carry). -/
def Doc : Type := String → Option JsVal

/-- The empty object literal. -/
def emptyDoc : Doc := fun _ => none

/-- JavaScript object spread of two documents (as in the merge
`\x7b...a, ...b\x7d`): keys of the later document win. -/
def spread (a b : Doc) : Doc :=
  fun k => match b k with
    | some v => some v
    | none => a k

/-! ## Dotfile config store (`src/sdk.js`) -/

/-- On-disk states of the project `.endgame` file: absent, present but not
valid JSON, or present with a parsed document. -/
inductive DotFileState where
  | absent
  | malformed
  | stored (doc : Doc)

def invalidDotfileJsonMsg : String :=
  "Invalid JSON in .endgame file. Fix the JSON and try again."

/-- `readDotFile` (`src/sdk.js` lines 19–45): `null` when the file is absent
(ENOENT), a thrown invalid-JSON error when it exists but does not parse, and
the parsed document otherwise. -/
def readDotFile : DotFileState → Except String (Option Doc)
  | .absent => .ok none
  | .malformed => .error invalidDotfileJsonMsg
  | .stored doc => .ok (some doc)

/-- The `defaultConfig` literal inside `writeDotFile`:
`org: 'personal'` and `settings: \x7b\x7d`. -/
def defaultConfig : Doc := fun k =>
  if k = "org" then some (.str "personal")
  else if k = "settings" then some (.obj [])
  else none

/-- The merged document computed by `writeDotFile` (`src/sdk.js` lines
55–81): spread of defaults, then the existing data (the existing document or
`\x7b\x7d` if the file was absent), then the new partial data — later spreads
win per key. -/
def writeDotFileDoc (existing : Option Doc) (data : Doc) : Doc :=
  spread (spread defaultConfig (existing.getD emptyDoc)) data

def appNameRequiredMsg : String := "appName is required for setup"

def invalidAppNameMsg : String :=
  "appName must be lowercase, alphanumeric characters and dashes only, between 3-20 characters"

/-- The conflict error message thrown by `setup`, with the existing app value
interpolated. -/
def appNameConflictMsg (existing : String) : String :=
  "App name conflict: \"" ++ existing ++
    "\" already exists in \".endgame\" file. Use that name or update the file manually."

/-- The test of `/^[a-z0-9-]\x7b3,20\x7d$/` on a string: three to twenty
characters, each a lowercase ASCII letter, a digit, or a dash. -/
def appNameRegexTest (s : String) : Bool :=
  3 ≤ s.length && s.length ≤ 20 &&
    s.data.all (fun c => ('a' ≤ c && c ≤ 'z') || ('0' ≤ c && c ≤ '9') || c == '-')

/-- The `essentialData` literal written by `setup`:
`org: 'personal'`, `app: appName`, `settings: \x7b\x7d`. -/
def essentialData (appName : String) : Doc := fun k =>
  if k = "org" then some (.str "personal")
  else if k = "app" then some (.str appName)
  else if k = "settings" then some (.obj [])
  else none

/-- `setup` (`src/sdk.js` lines 92–130) as a state transformer on the dotfile:
requires a truthy `appName`, validates it against the app-name regex, reads
the existing data (`\x7b\x7d` when absent), throws a conflict when a truthy
existing `app` value differs from `appName`, and otherwise writes the merge
computed by `writeDotFile`.  Returns the resulting file state and the thrown
message or the success value. -/
def setup (st : DotFileState) (appName : String) : DotFileState × Except String Doc :=
  if appName = "" then (st, .error appNameRequiredMsg)
  else if !(appNameRegexTest appName) then (st, .error invalidAppNameMsg)
  else
    match readDotFile st with
    | .error e => (st, .error e)
    | .ok existing =>
      let existingData := existing.getD emptyDoc
      if jsOptTruthy (existingData "app") && jsStrictNeqStr (existingData "app") appName then
        (st, .error (appNameConflictMsg (jsToString ((existingData "app").getD .null))))
      else
        (.stored (writeDotFileDoc existing (essentialData appName)),
         .ok (spread existingData (essentialData appName)))

def noDotfileMsg : String :=
  "No \".endgame\" file found in the root directory. Please run the \"setup\" tool first to configure your app for deployment."

def noAppPropertyMsg : String :=
  "No \"app\" property for your app\x27s name found in \".endgame\" file. Please run the \"setup\" tool first with an app name to configure your app for deployment."

/-- An object literal is always truthy in JavaScript; `dotfileData` in
`resolveAppName` is `readDotFile(...) || \x7b\x7d`, hence an object. -/
def objTruthy (_ : Doc) : Bool := true

/-- `resolveAppName` (`src/sdk.js` lines 140–159): reads the dotfile data
defaulted to `\x7b\x7d`, then tests `if (!dotfileData)` — which can never
fire, since the defaulted value is an object — then throws the
missing-app-property error when `dotfileData.app` is falsy, and otherwise
returns `dotfileData.app`. -/
def resolveAppName (st : DotFileState) : Except String JsVal :=
  match readDotFile st with
  | .error e => .error e
  | .ok data =>
    let dotfileData := data.getD emptyDoc
    if !(objTruthy dotfileData) then .error noDotfileMsg
    else
      match dotfileData "app" with
      | none => .error noAppPropertyMsg
      | some v => if !(jsValTruthy v) then .error noAppPropertyMsg else .ok v

/-! ## Global config store (`src/utils/global-config.js` and its revision) -/

/-- On-disk states of the per-user global config file. -/
inductive GlobalFileState where
  | absent
  | malformed
  | stored (doc : Doc)

def invalidGlobalJsonMsg : String :=
  "Invalid JSON in .endgamerc file. Fix the JSON and try again."

/-- `readGlobalConfig`: `null` when the file is absent (ENOENT), a thrown
invalid-JSON error when it exists but does not parse, the parsed document
otherwise. -/
def readGlobalConfig : GlobalFileState → Except String (Option Doc)
  | .absent => .ok none
  | .malformed => .error invalidGlobalJsonMsg
  | .stored doc => .ok (some doc)

/-- The merged document computed by `writeGlobalConfig`: spread of the
existing document (or `\x7b\x7d`) with the new partial data. -/
def writeGlobalConfigDoc (existing : Option Doc) (data : Doc) : Doc :=
  spread (existing.getD emptyDoc) data

/-- `getGlobalApiKey`: wraps `readGlobalConfig` in a catch-all that returns
`null` on any thrown error, and evaluates `config?.apiKey || null` — `null`
when the file is absent, unreadable, lacks the key, or holds a falsy value. -/
def getGlobalApiKey (st : GlobalFileState) : Option JsVal :=
  match readGlobalConfig st with
  | .error _ => none
  | .ok cfg =>
    match cfg with
    | none => none
    | some doc =>
      match doc "apiKey" with
      | none => none
      | some v => if jsValTruthy v then some v else none

/-! ## Authenticated request helper (`fetchManagementApi`, live `sdk.js` revision) -/

/-- The process environment consumed by `fetchManagementApi`. -/
structure SdkEnv where
  apiKeyVar : Option String
  managementApiUrl : Option String

def apiKeyNotFoundMsg : String :=
  "API_KEY not found. Please run a tool to trigger authentication."

/-- What a call to `fetchManagementApi` does before any network traffic:
either it throws locally, or it issues one HTTP request to the given URL with
the given bearer credential. -/
inductive FetchOutcome where
  | threw (message : String)
  | requested (url : String) (bearer : String)
deriving DecidableEq

/-- `process.env.MANAGEMENT_API_URL || 'https://api.endgame.dev'`. -/
def managementBaseUrl (env : SdkEnv) : String :=
  match env.managementApiUrl with
  | none => "https://api.endgame.dev"
  | some u => if u = "" then "https://api.endgame.dev" else u

/-- `fetchManagementApi` (live `sdk.js` revision, lines 47–85): takes
`process.env.API_KEY`; if that is falsy falls back to `getGlobalApiKey()`;
if the result is still falsy throws the no-API-key error before any network
request; otherwise issues the request with `Authorization: Bearer` set to the
resolved credential. -/
def fetchManagementApi (env : SdkEnv) (gst : GlobalFileState) (path : String) :
    FetchOutcome :=
  let apiKey0 : Option JsVal := (env.apiKeyVar).map .str
  let apiKey : Option JsVal :=
    if !(jsOptTruthy apiKey0) then getGlobalApiKey gst else apiKey0
  if !(jsOptTruthy apiKey) then .threw apiKeyNotFoundMsg
  else .requested (managementBaseUrl env ++ path) (jsToString (apiKey.getD .null))

/-! ## Concrete documents used as test inputs -/

/-- A global config document persisting a non-empty API key. -/
def persistedKeyDoc : Doc := fun k =>
  if k = "apiKey" then some (.str "persisted-key") else none

/-- A project config document recording `app: "myapp"`. -/
def exampleAppDoc : Doc := fun k =>
  if k = "app" then some (.str "myapp") else none

/-- A partial document touching only the `settings` key. -/
def settingsPatchDoc : Doc := fun k =>
  if k = "settings" then some (.obj []) else none

/-! ## Packaging pipeline (`src/utils/zip.js`) -/

/-- A directory-tree entry as returned by `readdir` with file types: a
regular file or a directory with its children.  Paths are modelled as lists
of resolved path components. -/
inductive FsEntry where
  | file (name : String)
  | dir (name : String) (children : List FsEntry)

/-- The JavaScript test `s.startsWith(pre)`, expressed on the character
lists of the two strings. -/
def jsStartsWith (s pre : String) : Bool := pre.data.isPrefixOf s.data

mutual

/-- One step of the `collectFiles` traversal (`src/utils/zip.js` lines
74–91) on a single directory entry: skip an entry named `node_modules`, skip
an entry whose name starts with `.env`, skip an entry whose resolved full
path equals the resolved output path, collect a surviving file as its
(fullPath, relPath) pair, and recurse into a surviving directory. -/
def collectEntry (outPath dirPath base : List String) :
    FsEntry → List (List String × List String)
  | .file name =>
      if name = "node_modules" then []
      else if jsStartsWith name ".env" then []
      else if dirPath ++ [name] = outPath then []
      else [(dirPath ++ [name], base ++ [name])]
  | .dir name children =>
      if name = "node_modules" then []
      else if jsStartsWith name ".env" then []
      else if dirPath ++ [name] = outPath then []
      else collectEntries outPath (dirPath ++ [name]) (base ++ [name]) children

/-- `collectFiles` over the entries of one directory, concatenating the
per-entry results in order. -/
def collectEntries (outPath dirPath base : List String) :
    List FsEntry → List (List String × List String)
  | [] => []
  | e :: rest =>
      collectEntry outPath dirPath base e ++ collectEntries outPath dirPath base rest

end

/-- An entry of the produced archive: either a traversed file stored under
its tree-relative path, or an explicitly injected additional file stored
under its designated destination name. -/
inductive ZipEntry where
  | fromTree (fullPath relPath : List String)
  | injected (destName : String)
deriving DecidableEq

/-- The entries of the archive produced by `zipDirectory` (`src/utils/zip.js`
lines 54–128): the files collected by the traversal (added under their
relative paths), followed by the additional files (added under their
destination names, after the traversal and exempt from its exclusions). -/
def zipDirectory (srcDir outPath : List String) (tree : List FsEntry)
    (additionalFiles : List (String × String)) : List ZipEntry :=
  (collectEntries outPath srcDir [] tree).map (fun p => .fromTree p.1 p.2) ++
    additionalFiles.map (fun a => .injected a.2)

/-- Filesystem state relevant to one packaging job: whether the output zip
file currently exists. -/
structure ZipFs where
  zipExists : Bool
deriving DecidableEq

def rmFailedMsg : String := "rm failed"

/-- `rm(zipPath, force)` as used by the cleanup: removes the file but may
itself fail (modelled by `rmFails`); with `force` a missing file is not an
error. -/
def rmForce (rmFails : Bool) (_fs : ZipFs) : Except String ZipFs :=
  if rmFails then .error rmFailedMsg else .ok ⟨false⟩

/-- `cleanupTempZip` (`src/utils/zip.js` lines 31–41): inside a try/catch,
if the path is truthy and the file exists, remove it; a removal error is
logged and swallowed — the function never throws. -/
def cleanupTempZip (pathTruthy rmFails : Bool) (fs : ZipFs) : Except String ZipFs :=
  match (if pathTruthy && fs.zipExists then rmForce rmFails fs else .ok fs) with
  | .ok fs2 => .ok fs2
  | .error _ => .ok fs

/-- The effect of one `zipDirectory` call on the output file: the write
stream creates the file; when any later step fails (`zipFailure` carries the
error), the catch block destroys the stream, runs `cleanupTempZip` on the
output path, and rethrows. -/
def zipDirectoryRun (zipFailure : Option String) (rmFails : Bool) :
    ZipFs × Except String Unit :=
  let fs1 : ZipFs := ⟨true⟩
  match zipFailure with
  | none => (fs1, .ok ())
  | some e =>
      match cleanupTempZip true rmFails fs1 with
      | .ok fs2 => (fs2, .error e)
      | .error _ => (fs1, .error e)

/-- `createTempZip` (`src/utils/zip.js` lines 140–155): runs `zipDirectory`
on a fresh temp path; on success returns the path and a cleanup closure; on
failure runs `cleanupTempZip` (again — it is idempotent) and rethrows. -/
def createTempZip (zipFailure : Option String) (rmFails : Bool) :
    ZipFs × Except String Unit :=
  match zipDirectoryRun zipFailure rmFails with
  | (fs1, .ok u) => (fs1, .ok u)
  | (fs1, .error e) =>
      match cleanupTempZip true rmFails fs1 with
      | .ok fs2 => (fs2, .error e)
      | .error _ => (fs1, .error e)

/-- The source tree of the packaging example in the spec: `node_modules`
holding `foo.js`, a `.env` file, and `src/index.js`. -/
def exampleTree : List FsEntry :=
  [.dir "node_modules" [.file "foo.js"], .file ".env",
   .dir "src" [.file "index.js"]]

end Endgame

namespace Endgame

/-- C1 (amended): on the callback path, a request whose `error` parameter is
present and non-empty gets a 400 and rejects the pending promise with the
provider error string; when the `error` parameter is absent or empty and the
`api_key` parameter is absent or empty, the server responds 400 and rejects
with the missing-credential error; when the `error` parameter is absent or
empty and `api_key` is present and non-empty, the server responds 200 and
resolves the promise with exactly that value; every request to another path
gets a 404 and leaves the promise untouched.  (An empty-valued query
parameter is treated as absent by the JS truthiness tests in the handler.) -/
theorem C1_callback_dispatch (req : CallbackRequest) :
    (req.pathname = "/mcp/auth/callback" →
      (∀ e, req.errorParam = some e → e ≠ "" →
        handleCallbackRequest req =
          (⟨400, authFailedCloseBody⟩, .rejectWith ("Authentication error: " ++ e))) ∧
      ((req.errorParam = none ∨ req.errorParam = some "") →
        (req.apiKeyParam = none ∨ req.apiKeyParam = some "") →
        handleCallbackRequest req =
          (⟨400, authFailedNoKeyBody⟩, .rejectWith "No API key received")) ∧
      ((req.errorParam = none ∨ req.errorParam = some "") →
        ∀ k, req.apiKeyParam = some k → k ≠ "" →
        handleCallbackRequest req = (⟨200, authSuccessBody⟩, .resolveWith k))) ∧
    (req.pathname ≠ "/mcp/auth/callback" →
      handleCallbackRequest req = (⟨404, "Not Found"⟩, .untouched)) := by
  constructor
  · intro hpath
    refine ⟨?_, ?_, ?_⟩
    · intro e he hne
      simp [handleCallbackRequest, hpath, he, jsTruthy, hne]
    · intro herr hkey
      rcases herr with h | h <;> rcases hkey with h2 | h2 <;>
        simp [handleCallbackRequest, hpath, h, h2, jsTruthy]
    · intro herr k hk hkne
      rcases herr with h | h <;>
        simp [handleCallbackRequest, hpath, h, hk, jsTruthy, hkne]
  · intro hpath
    simp [handleCallbackRequest, hpath]

/-- C1 witness: a concrete well-formed callback request with
`api_key=ABC123` is answered 200 and resolves the promise with `ABC123`. -/
theorem C1_callback_dispatch_witness :
    handleCallbackRequest ⟨"/mcp/auth/callback", some "ABC123", none⟩ =
      (⟨200, authSuccessBody⟩, .resolveWith "ABC123") :=
  ((C1_callback_dispatch ⟨"/mcp/auth/callback", some "ABC123", none⟩).1 rfl).2.2
    (Or.inl rfl) "ABC123" rfl (by decide)

/-- C1 counterexample: the request to the callback path carrying the
credential parameter with an empty value (`api_key=`) and no error parameter.
The claim as stated says the parameter is present so the server must respond
200 and resolve the promise with that (empty) value; the code instead
responds 400 and rejects with the missing-credential error, because
`if (!apiKey)` treats the empty string as absent. -/
theorem C1_counterexample :
    (⟨"/mcp/auth/callback", some "", none⟩ : CallbackRequest).apiKeyParam ≠ none ∧
    handleCallbackRequest ⟨"/mcp/auth/callback", some "", none⟩ =
      (⟨400, authFailedNoKeyBody⟩, .rejectWith "No API key received") ∧
    ¬ (handleCallbackRequest ⟨"/mcp/auth/callback", some "", none⟩ =
        (⟨200, authSuccessBody⟩, .resolveWith "")) := by
  refine ⟨by simp, by simp [handleCallbackRequest, jsTruthy], ?_⟩
  simp [handleCallbackRequest, jsTruthy, authFailedNoKeyBody, authSuccessBody]

/-- C2: for every outcome of the race (credential resolved, provider error or
missing-credential rejection, or the 5-minute timeout) and whether or not the
credential save step itself throws, the flow closes the callback server
exactly once, its trace ends in a single return-or-throw event, and the
server-close event happens strictly before that terminal event — so every
authentication error is thrown only after the server has been closed. -/
theorem C2_server_closed_exactly_once (outcome : RaceOutcome) (saveFailure : Option String) :
    (startDashboardAuthFlow outcome saveFailure).count .closeServer = 1 ∧
    ∃ pre last, startDashboardAuthFlow outcome saveFailure = pre ++ [last] ∧
      last.isTerminal = true ∧ .closeServer ∈ pre ∧
      ∀ e ∈ pre, e.isTerminal = false := by
  rcases outcome with k | m | _
  · rcases saveFailure with _ | e
    · refine ⟨by simp [startDashboardAuthFlow, List.count_cons],
        [.openBrowser, .saveApiKey k, .closeServer], .returned k,
        by simp [startDashboardAuthFlow], rfl, by simp, ?_⟩
      intro e he
      fin_cases he <;> rfl
    · refine ⟨by simp [startDashboardAuthFlow, List.count_cons],
        [.openBrowser, .saveApiKey k, .closeServer], .threw e,
        by simp [startDashboardAuthFlow], rfl, by simp, ?_⟩
      intro e he
      fin_cases he <;> rfl
  · refine ⟨by simp [startDashboardAuthFlow, List.count_cons],
      [.openBrowser, .closeServer], .threw m,
      by simp [startDashboardAuthFlow], rfl, by simp, ?_⟩
    intro e he
    fin_cases he <;> rfl
  · refine ⟨by simp [startDashboardAuthFlow, List.count_cons],
      [.openBrowser, .closeServer], .threw timeoutMessage,
      by simp [startDashboardAuthFlow], rfl, by simp, ?_⟩
    intro e he
    fin_cases he <;> rfl

/-- A value returned by `getGlobalApiKey` is always truthy: the `|| null`
coercion maps every falsy stored value to `null` (here `none`). -/
theorem getGlobalApiKey_truthy (gst : GlobalFileState) (v : JsVal)
    (h : getGlobalApiKey gst = some v) : jsValTruthy v = true := by
  cases gst with
  | absent => simp [getGlobalApiKey, readGlobalConfig] at h
  | malformed => simp [getGlobalApiKey, readGlobalConfig] at h
  | stored doc =>
      simp only [getGlobalApiKey, readGlobalConfig] at h
      cases hd : doc "apiKey" with
      | none => rw [hd] at h; exact absurd h (by simp)
      | some w =>
          rw [hd] at h
          replace h : (if jsValTruthy w = true then some w else none) = some v := h
          by_cases hw : jsValTruthy w = true
          · rw [if_pos hw] at h
            cases h
            exact hw
          · rw [if_neg hw] at h
            exact absurd h (by simp)

/-- C3 (amended): in the authenticated-request helper, an `API_KEY`
environment variable set to a non-empty value is used as the bearer
credential regardless of the persisted global credential; when the variable
is unset or empty, the persisted global-config `apiKey` (as resolved by
`getGlobalApiKey`) is used; and when that also resolves to nothing, the call
throws the no-API-key error, issuing no network request.  (An environment
variable set to the empty string is falsy in JS and is treated as unset.) -/
theorem C3_credential_resolution (env : SdkEnv) (gst : GlobalFileState) (path : String) :
    (∀ k, env.apiKeyVar = some k → k ≠ "" →
      fetchManagementApi env gst path = .requested (managementBaseUrl env ++ path) k) ∧
    ((env.apiKeyVar = none ∨ env.apiKeyVar = some "") →
      (∀ v, getGlobalApiKey gst = some v →
        fetchManagementApi env gst path =
          .requested (managementBaseUrl env ++ path) (jsToString v)) ∧
      (getGlobalApiKey gst = none →
        fetchManagementApi env gst path = .threw apiKeyNotFoundMsg)) := by
  constructor
  · intro k hk hkne
    simp [fetchManagementApi, hk, jsOptTruthy, jsValTruthy, hkne, jsToString]
  · intro henv
    constructor
    · intro v hv
      have hw := getGlobalApiKey_truthy gst v hv
      rcases henv with h | h <;>
        simp [fetchManagementApi, h, jsOptTruthy, hv, hw,
          show jsValTruthy (JsVal.str "") = false from rfl]
    · intro hv
      rcases henv with h | h <;>
        simp [fetchManagementApi, h, jsOptTruthy, hv,
          show jsValTruthy (JsVal.str "") = false from rfl]

/-- C3 witness: with `API_KEY=env-secret` in the environment and no global
config file, the request goes out with bearer `env-secret`; with the
variable unset and a persisted key, the persisted key is used; with neither,
the call throws the no-API-key error. -/
theorem C3_credential_resolution_witness :
    fetchManagementApi ⟨some "env-secret", none⟩ .absent "/account" =
      .requested "https://api.endgame.dev/account" "env-secret" ∧
    fetchManagementApi ⟨none, none⟩ (.stored persistedKeyDoc) "/account" =
      .requested "https://api.endgame.dev/account" "persisted-key" ∧
    fetchManagementApi ⟨none, none⟩ .absent "/account" = .threw apiKeyNotFoundMsg := by
  refine ⟨?_, ?_, ?_⟩
  · exact (C3_credential_resolution ⟨some "env-secret", none⟩ .absent "/account").1
      "env-secret" rfl (by decide)
  · exact ((C3_credential_resolution ⟨none, none⟩ (.stored persistedKeyDoc) "/account").2
      (Or.inl rfl)).1 (.str "persisted-key") rfl
  · exact ((C3_credential_resolution ⟨none, none⟩ .absent "/account").2
      (Or.inl rfl)).2 rfl

/-- C3 counterexample: `API_KEY` set to the empty string while a persisted
global credential exists.  The claim as stated says the environment value is
used as the bearer credential even when a persisted credential exists; the
code instead falls back to the persisted key because `if (!apiKey)` treats
the empty string as unset. -/
theorem C3_counterexample :
    (⟨some "", none⟩ : SdkEnv).apiKeyVar ≠ none ∧
    fetchManagementApi ⟨some "", none⟩ (.stored persistedKeyDoc) "/account" =
      .requested "https://api.endgame.dev/account" "persisted-key" ∧
    "persisted-key" ≠ "" := by
  refine ⟨by simp, rfl, by decide⟩

/-- C4 (amended): setup succeeds only if the app name matches
`[a-z0-9-]` repeated 3 to 20 times; every non-empty app name violating the
pattern fails with the invalid-app-name error and leaves the file state
untouched; the empty app name also fails without touching the file, but with
the appName-required error rather than the invalid-app-name error. -/
theorem C4_setup_validates_app_name (st : DotFileState) (a : String) :
    (∀ r, (setup st a).2 = .ok r → appNameRegexTest a = true) ∧
    (a ≠ "" → appNameRegexTest a = false →
      setup st a = (st, .error invalidAppNameMsg)) ∧
    (a = "" → setup st a = (st, .error appNameRequiredMsg)) := by
  refine ⟨?_, ?_, ?_⟩
  · intro r hr
    by_cases ha : a = ""
    · rw [ha] at hr
      simp [setup] at hr
    · by_cases hreg : appNameRegexTest a = true
      · exact hreg
      · rw [Bool.not_eq_true] at hreg
        simp [setup, ha, hreg] at hr
  · intro ha hreg
    simp [setup, ha, hreg]
  · intro ha
    simp [setup, ha]

/-- C4 witness: the invalid names from the spec all fail with the
invalid-app-name error and leave an absent file absent. -/
theorem C4_setup_validates_app_name_witness :
    setup .absent "AB" = (.absent, .error invalidAppNameMsg) ∧
    setup .absent "has_underscore" = (.absent, .error invalidAppNameMsg) ∧
    setup .absent "toolongtoolongtoolongtoolong" = (.absent, .error invalidAppNameMsg) := by
  refine ⟨?_, ?_, ?_⟩
  · exact (C4_setup_validates_app_name .absent "AB").2.1 (by decide) (by decide)
  · exact (C4_setup_validates_app_name .absent "has_underscore").2.1 (by decide) (by decide)
  · exact (C4_setup_validates_app_name .absent
      "toolongtoolongtoolongtoolong").2.1 (by decide) (by decide)

/-- C4 counterexample: the empty string violates the pattern, but setup
rejects it with the appName-required error, not the invalid-app-name error
(the `if (!appName)` guard fires first). -/
theorem C4_counterexample :
    appNameRegexTest "" = false ∧
    (setup .absent "").2 = .error appNameRequiredMsg ∧
    appNameRequiredMsg ≠ invalidAppNameMsg := by
  refine ⟨rfl, rfl, by decide⟩

/-- C5 (amended): when the project config records a non-empty app value `A`
and setup is called with a pattern-valid name `B`: if `B` differs from `A`
the call fails with the app-name-conflict error and the file state is
unchanged (still recording `A`); if `B` equals `A` the call succeeds and the
resulting file still records `A`.  (A `B` violating the pattern fails
earlier with the invalid-app-name error instead of the conflict error.) -/
theorem C5_setup_conflict (E : Doc) (A B : String) (hE : E "app" = some (.str A))
    (hA : A ≠ "") (hB : appNameRegexTest B = true) :
    (B ≠ A → setup (.stored E) B = (.stored E, .error (appNameConflictMsg A))) ∧
    (B = A → ∃ d r, setup (.stored E) B = (.stored d, .ok r) ∧
      d "app" = some (.str A)) := by
  have hBne : B ≠ "" := by
    intro hb
    rw [hb] at hB
    exact absurd hB (by decide)
  constructor
  · intro hne
    simp [setup, hBne, hB, readDotFile, hE, jsOptTruthy, jsValTruthy, hA,
      jsStrictNeqStr, jsToString, Ne.symm hne]
  · intro heq
    subst heq
    refine ⟨writeDotFileDoc (some E) (essentialData B),
      spread E (essentialData B), ?_, ?_⟩
    · simp [setup, hBne, hB, readDotFile, hE, jsOptTruthy, jsValTruthy,
        jsStrictNeqStr]
    · simp [writeDotFileDoc, spread, essentialData]

/-- C5 witness: with `app: "myapp"` on disk, setup with `other-app` fails
with the conflict message naming `myapp` and leaves the file unchanged, and
setup with `myapp` succeeds with the file still recording `myapp`. -/
theorem C5_setup_conflict_witness :
    setup (.stored exampleAppDoc) "other-app" =
      (.stored exampleAppDoc, .error (appNameConflictMsg "myapp")) ∧
    ∃ d r, setup (.stored exampleAppDoc) "myapp" = (.stored d, .ok r) ∧
      d "app" = some (.str "myapp") := by
  constructor
  · exact (C5_setup_conflict exampleAppDoc "myapp" "other-app" rfl (by decide)
      (by decide)).1 (by decide)
  · exact (C5_setup_conflict exampleAppDoc "myapp" "myapp" rfl (by decide)
      (by decide)).2 rfl

/-- C5 counterexample: with `app: "myapp"` recorded on disk, setup with the
different name `AB` fails with the invalid-app-name error, not the
app-name-conflict error — the regex check precedes the conflict check. -/
theorem C5_counterexample :
    exampleAppDoc "app" = some (.str "myapp") ∧
    (setup (.stored exampleAppDoc) "AB").2 = .error invalidAppNameMsg ∧
    invalidAppNameMsg ≠ appNameConflictMsg "myapp" := by
  refine ⟨rfl, rfl, by decide⟩

/-- C6: evaluation at the failing input.  When no project config file
exists, `resolveAppName` throws the missing-app-property error, not the
no-file-found error the claim (and the code comment above the dead
`if (!dotfileData)` check) call for; indeed no file state whatsoever can
produce the no-file-found error, because `readDotFile(...) || \x7b\x7d` is
always a truthy object.  A document with a truthy `app` value is returned
exactly. -/
theorem C6_missing_file_wrong_error :
    resolveAppName .absent = .error noAppPropertyMsg ∧
    noAppPropertyMsg ≠ noDotfileMsg ∧
    (∀ st, resolveAppName st ≠ .error noDotfileMsg) ∧
    resolveAppName (.stored exampleAppDoc) = .ok (.str "myapp") := by
  refine ⟨rfl, by decide, ?_, rfl⟩
  intro st h
  cases st with
  | absent =>
      rw [show resolveAppName .absent = .error noAppPropertyMsg from rfl] at h
      exact absurd (Except.error.inj h) (by decide)
  | malformed =>
      rw [show resolveAppName .malformed = .error invalidDotfileJsonMsg from rfl] at h
      exact absurd (Except.error.inj h) (by decide)
  | stored doc =>
      have hst : resolveAppName (.stored doc) =
          match doc "app" with
          | none => .error noAppPropertyMsg
          | some v => if !(jsValTruthy v) then .error noAppPropertyMsg
                      else .ok v := rfl
      rw [hst] at h
      cases hd : doc "app" with
      | none =>
          rw [hd] at h
          exact absurd (Except.error.inj h) (by decide)
      | some v =>
          rw [hd] at h
          by_cases hv : jsValTruthy v = true
          · simp [hv] at h
          · rw [Bool.not_eq_true] at hv
            simp [hv] at h
            exact absurd h (by decide)

/-- C7: the dotfile write stores the spread of defaults, then the existing
document `E` (the empty object when the file is absent), then the partial
document `P`: keys of `P` win over `E`, keys of `E` win over the defaults,
a key of neither falls back to the defaults, every key of `E` not present in
`P` is preserved, and writing the same `P` a second time leaves the stored
document unchanged.  The global-config write obeys the same merge law with
an empty default document. -/
theorem C7_write_merge (E P : Doc) :
    (∀ k v, P k = some v → writeDotFileDoc (some E) P k = some v) ∧
    (∀ k v, P k = none → E k = some v → writeDotFileDoc (some E) P k = some v) ∧
    (∀ k, P k = none → E k = none → writeDotFileDoc (some E) P k = defaultConfig k) ∧
    writeDotFileDoc none P = writeDotFileDoc (some emptyDoc) P ∧
    writeDotFileDoc (some (writeDotFileDoc (some E) P)) P = writeDotFileDoc (some E) P ∧
    (∀ k v, P k = some v → writeGlobalConfigDoc (some E) P k = some v) ∧
    (∀ k v, P k = none → E k = some v → writeGlobalConfigDoc (some E) P k = some v) ∧
    writeGlobalConfigDoc (some (writeGlobalConfigDoc (some E) P)) P =
      writeGlobalConfigDoc (some E) P := by
  refine ⟨?_, ?_, ?_, ?_, ?_, ?_, ?_, ?_⟩
  · intro k v hp
    simp [writeDotFileDoc, spread, hp]
  · intro k v hp he
    simp [writeDotFileDoc, spread, hp, he]
  · intro k hp he
    simp [writeDotFileDoc, spread, hp, he]
  · rfl
  · funext k
    simp only [writeDotFileDoc, spread, Option.getD]
    cases hp : P k <;> cases he : E k <;> cases hdef : defaultConfig k <;> rfl
  · intro k v hp
    simp [writeGlobalConfigDoc, spread, hp]
  · intro k v hp he
    simp [writeGlobalConfigDoc, spread, hp, he]
  · funext k
    simp only [writeGlobalConfigDoc, spread, Option.getD]
    cases hp : P k <;> cases he : E k <;> rfl

/-- C7 witness: writing a partial document touching only `settings` over an
existing document recording `app: "myapp"` preserves the `app` key. -/
theorem C7_write_merge_witness :
    writeDotFileDoc (some exampleAppDoc) settingsPatchDoc "app" =
      some (.str "myapp") :=
  (C7_write_merge exampleAppDoc settingsPatchDoc).2.1 "app" (.str "myapp") rfl rfl

/-- C10: `getGlobalApiKey` is total and swallows every read or parse error:
it returns `none` when the global config file is absent, malformed, or valid
without an `apiKey` key; it returns the stored value when the file holds a
non-empty `apiKey` string; and whenever the underlying read throws, the
result is `none` rather than a propagated error. -/
theorem C10_getGlobalApiKey_total (st : GlobalFileState) :
    getGlobalApiKey .absent = none ∧
    getGlobalApiKey .malformed = none ∧
    (∀ doc, st = .stored doc → doc "apiKey" = none → getGlobalApiKey st = none) ∧
    (∀ doc k, st = .stored doc → doc "apiKey" = some (.str k) → k ≠ "" →
      getGlobalApiKey st = some (.str k)) ∧
    (∀ e, readGlobalConfig st = .error e → getGlobalApiKey st = none) := by
  refine ⟨rfl, rfl, ?_, ?_, ?_⟩
  · intro doc hst hd
    subst hst
    simp [getGlobalApiKey, readGlobalConfig, hd]
  · intro doc k hst hd hk
    subst hst
    simp [getGlobalApiKey, readGlobalConfig, hd, jsValTruthy, hk]
  · intro e he
    simp [getGlobalApiKey, he]

mutual

/-- Every pair collected from a single directory entry extends the current
directory path and archive-relative base by one common non-empty suffix all
of whose components survive the exclusion rules, and its full path is never
the output path. -/
theorem collectEntry_sound (outPath dirPath base : List String) (e : FsEntry)
    (p : List String × List String) (hp : p ∈ collectEntry outPath dirPath base e) :
    ∃ suf, suf ≠ [] ∧ p.1 = dirPath ++ suf ∧ p.2 = base ++ suf ∧
      (∀ c ∈ suf, c ≠ "node_modules" ∧ jsStartsWith c ".env" = false) ∧
      p.1 ≠ outPath := by
  cases e with
  | file name =>
      by_cases h1 : name = "node_modules"
      · simp [collectEntry, h1] at hp
      · by_cases h2 : jsStartsWith name ".env" = true
        · simp [collectEntry, h1, h2] at hp
        · by_cases h3 : dirPath ++ [name] = outPath
          · simp [collectEntry, h1, h2, h3] at hp
          · rw [Bool.not_eq_true] at h2
            simp [collectEntry, h1, h2, h3] at hp
            subst hp
            refine ⟨[name], by simp, rfl, rfl, ?_, h3⟩
            intro c hc
            rw [List.mem_singleton] at hc
            exact ⟨hc ▸ h1, hc ▸ h2⟩
  | dir name children =>
      by_cases h1 : name = "node_modules"
      · simp [collectEntry, h1] at hp
      · by_cases h2 : jsStartsWith name ".env" = true
        · simp [collectEntry, h1, h2] at hp
        · by_cases h3 : dirPath ++ [name] = outPath
          · simp [collectEntry, h1, h2, h3] at hp
          · rw [Bool.not_eq_true] at h2
            simp only [collectEntry, if_neg h1, h2, Bool.false_eq_true,
              if_false, if_neg h3] at hp
            obtain ⟨suf, hne, hfull, hrel, hok, hout⟩ :=
              collectEntries_sound outPath (dirPath ++ [name]) (base ++ [name])
                children p hp
            refine ⟨name :: suf, by simp, by simp [hfull], by simp [hrel], ?_, hout⟩
            intro c hc
            rcases List.mem_cons.mp hc with hc | hc
            · exact ⟨hc ▸ h1, hc ▸ h2⟩
            · exact hok c hc

/-- The soundness property of `collectEntry_sound`, extended over the list
of entries of one directory. -/
theorem collectEntries_sound (outPath dirPath base : List String)
    (es : List FsEntry) (p : List String × List String)
    (hp : p ∈ collectEntries outPath dirPath base es) :
    ∃ suf, suf ≠ [] ∧ p.1 = dirPath ++ suf ∧ p.2 = base ++ suf ∧
      (∀ c ∈ suf, c ≠ "node_modules" ∧ jsStartsWith c ".env" = false) ∧
      p.1 ≠ outPath := by
  cases es with
  | nil => simp [collectEntries] at hp
  | cons e rest =>
      rw [collectEntries, List.mem_append] at hp
      rcases hp with hp | hp
      · exact collectEntry_sound outPath dirPath base e p hp
      · exact collectEntries_sound outPath dirPath base rest p hp

end

/-- C8: for every source tree, output path and injected additional files,
every tree-sourced entry of the produced archive has a relative path none of
whose components is `node_modules` or starts with `.env` (so nothing under a
`node_modules` directory and no traversed `.env*` file is archived), no
tree-sourced entry is the output file itself even when the output path lies
under the source tree, and every injected additional file appears in the
archive under its designated destination name. -/
theorem C8_zip_exclusions (srcDir outPath : List String) (tree : List FsEntry)
    (additionalFiles : List (String × String)) :
    (∀ full rel,
      ZipEntry.fromTree full rel ∈ zipDirectory srcDir outPath tree additionalFiles →
      (∀ c ∈ rel, c ≠ "node_modules" ∧ jsStartsWith c ".env" = false) ∧
        full ≠ outPath) ∧
    (∀ src dest, (src, dest) ∈ additionalFiles →
      ZipEntry.injected dest ∈ zipDirectory srcDir outPath tree additionalFiles) := by
  constructor
  · intro full rel hmem
    rw [zipDirectory, List.mem_append] at hmem
    rcases hmem with hmem | hmem
    · rw [List.mem_map] at hmem
      obtain ⟨p, hp, heq⟩ := hmem
      obtain ⟨hfull, hrel⟩ : p.1 = full ∧ p.2 = rel := by
        cases heq
        exact ⟨rfl, rfl⟩
      obtain ⟨suf, _, h1, h2, hok, hout⟩ :=
        collectEntries_sound outPath srcDir [] tree p hp
      rw [hfull] at h1 hout
      rw [hrel] at h2
      rw [List.nil_append] at h2
      subst h2
      exact ⟨hok, hout⟩
    · rw [List.mem_map] at hmem
      obtain ⟨a, _, heq⟩ := hmem
      cases heq
  · intro src dest hmem
    rw [zipDirectory, List.mem_append]
    right
    rw [List.mem_map]
    exact ⟨(src, dest), hmem, rfl⟩

/-- C8 witness: on the source tree from the spec (`node_modules/foo.js`,
`.env`, `src/index.js`) with the output zip inside the source tree and one
injected environment file, the archive is exactly the traversed
`src/index.js` plus the injection, the collected entry satisfies the
exclusion conclusions, and the injected `.env` is present. -/
theorem C8_zip_exclusions_witness :
    zipDirectory ["app"] ["app", "tmp.zip"] exampleTree [("secrets-env", ".env")] =
      [.fromTree ["app", "src", "index.js"] ["src", "index.js"], .injected ".env"] ∧
    ((∀ c ∈ (["src", "index.js"] : List String),
        c ≠ "node_modules" ∧ jsStartsWith c ".env" = false) ∧
      ["app", "src", "index.js"] ≠ ["app", "tmp.zip"]) ∧
    ZipEntry.injected ".env" ∈
      zipDirectory ["app"] ["app", "tmp.zip"] exampleTree [("secrets-env", ".env")] := by
  have henv : jsStartsWith ".env" ".env" = true := rfl
  have hsrc : jsStartsWith "src" ".env" = false := rfl
  have hidx : jsStartsWith "index.js" ".env" = false := rfl
  refine ⟨?_, ?_, ?_⟩
  · simp [zipDirectory, exampleTree, collectEntries, collectEntry, henv, hsrc, hidx]
  · exact (C8_zip_exclusions ["app"] ["app", "tmp.zip"] exampleTree
      [("secrets-env", ".env")]).1 ["app", "src", "index.js"] ["src", "index.js"]
      (by simp [zipDirectory, exampleTree, collectEntries, collectEntry, henv, hsrc, hidx])
  · exact (C8_zip_exclusions ["app"] ["app", "tmp.zip"] exampleTree
      [("secrets-env", ".env")]).2 "secrets-env" ".env" (by simp)

/-- C9: the packaging cleanup never throws (its catch swallows removal
errors); when the file exists and removal works it removes the file; when
the file is already gone every further call is an accepted no-op — so any
number of calls after the first succeeds; and when any step of archive
creation fails, the error propagates to the caller and (removal permitting)
the partial output file has been cleaned up first. -/
theorem C9_cleanup_guarantee (pathTruthy rmFails : Bool) (fs : ZipFs) :
    (∃ fs2, cleanupTempZip pathTruthy rmFails fs = .ok fs2) ∧
    cleanupTempZip true false fs = .ok ⟨false⟩ ∧
    cleanupTempZip pathTruthy rmFails ⟨false⟩ = .ok ⟨false⟩ ∧
    (∀ e, ∃ fs2, createTempZip (some e) rmFails = (fs2, .error e) ∧
      (rmFails = false → fs2.zipExists = false)) := by
  obtain ⟨b⟩ := fs
  refine ⟨?_, ?_, ?_, ?_⟩
  · cases pathTruthy <;> cases rmFails <;> cases b <;>
      exact ⟨_, rfl⟩
  · cases b <;> rfl
  · cases pathTruthy <;> cases rmFails <;> rfl
  · intro e
    cases rmFails
    · exact ⟨⟨false⟩, rfl, fun _ => rfl⟩
    · exact ⟨⟨true⟩, rfl, fun h => by cases h⟩

/-- C9 witness: a failing archive creation with working removal propagates
the error with the partial file removed, and a second cleanup call on the
already-clean state succeeds. -/
theorem C9_cleanup_guarantee_witness :
    createTempZip (some "write stream failed") false = (⟨false⟩, .error "write stream failed") ∧
    cleanupTempZip true false ⟨true⟩ = .ok ⟨false⟩ ∧
    cleanupTempZip true false ⟨false⟩ = .ok ⟨false⟩ := by
  obtain ⟨fs2, h1, h2⟩ :=
    (C9_cleanup_guarantee true false ⟨true⟩).2.2.2 "write stream failed"
  have hfs : fs2 = ⟨false⟩ := by
    obtain ⟨b⟩ := fs2
    have hb := h2 rfl
    simp only at hb
    rw [hb]
  refine ⟨hfs ▸ h1, (C9_cleanup_guarantee true false ⟨true⟩).2.1, ?_⟩
  exact (C9_cleanup_guarantee true false ⟨false⟩).2.2.1

/-- C2 witness: a concrete resolved run applied to the lifecycle theorem —
its trace closes the server exactly once. -/
theorem C2_server_closed_exactly_once_witness :
    (startDashboardAuthFlow (.resolved "ABC123") none).count .closeServer = 1 :=
  (C2_server_closed_exactly_once (.resolved "ABC123") none).1

/-- C6 witness: instantiation of the dead-branch fact — even a malformed
config file cannot produce the no-file-found error. -/
theorem C6_missing_file_wrong_error_witness :
    resolveAppName .malformed ≠ .error noDotfileMsg :=
  C6_missing_file_wrong_error.2.2.1 .malformed

/-- C10 witness: on a config file persisting `apiKey: "persisted-key"`, the
accessor returns that key; on an absent file it returns `none`. -/
theorem C10_getGlobalApiKey_total_witness :
    getGlobalApiKey (.stored persistedKeyDoc) = some (.str "persisted-key") ∧
    getGlobalApiKey .absent = none := by
  constructor
  · exact (C10_getGlobalApiKey_total (.stored persistedKeyDoc)).2.2.2.1
      persistedKeyDoc "persisted-key" rfl rfl (by decide)
  · exact (C10_getGlobalApiKey_total .absent).1

end Endgame
